import Mathlib

/-!
Verification development for the insider-wallet PnL manager.

The numeric type of the JavaScript source (IEEE double) is modelled by exact
rationals: every arithmetic operation used by the code (+, -, *, /, Math.min,
Math.max, Math.abs, comparisons) is translated to the corresponding exact
operation on rationals. Helper functions jsMin, jsMax and jsAbs spell out the
JS library functions so that concrete inputs evaluate by kernel reduction.
One caveat of the idealisation: JS division by zero yields Infinity/NaN while
rational division by zero yields 0; every theorem below that talks about a
numeric value of a division keeps its denominator away from zero, and the one
claim that touches the zero-denominator path is settled purely on the
structure of the code (totality, no error channel), which is unaffected.
-/

/-- Math.min of the JS source. -/
def jsMin (a b : ℚ) : ℚ := if a ≤ b then a else b

/-- Math.max of the JS source. -/
def jsMax (a b : ℚ) : ℚ := if a ≤ b then b else a

/-- Math.abs of the JS source. -/
def jsAbs (a : ℚ) : ℚ := if a < 0 then -a else a

/-- WalletData of src/unnamed/part_001 (DataInput): one group-input record. -/
structure WalletData where
  id : String
  walletAddress : String
  tokenName : String
  investedAmount : ℚ
  entryMarketCap : ℚ
  exitMarketCap : ℚ
deriving DecidableEq

/-- CalculatedWallet of src/unnamed/part_003 and part_001: WalletData extended
with the computed PnL and redistribution fields. -/
structure CalculatedWallet extends WalletData where
  rawPnL : ℚ
  pnLPercentage : ℚ
  redistributionAmount : ℚ
  finalBalance : ℚ
  isProfit : Bool
deriving DecidableEq

/-- The redistribution mode of the PnLCalculator component: the string state
"equal" / "proportional" / "custom" together with, in the custom case, the
customPercentages map. The source lookup, customPercentages[id] || 0,
defaults a missing entry to 0, so the map is modelled as a total function. -/
inductive RedistributionMode where
  | equal : RedistributionMode
  | proportional : RedistributionMode
  | custom : (String → ℚ) → RedistributionMode

/-- Lines 33-50 of src/unnamed/part_003 (identical in part_001): the per-wallet
raw PnL map at the head of calculatePnL. -/
def computeWalletPnL (wallet : WalletData) : CalculatedWallet :=
  let marketCapFactor := wallet.exitMarketCap / wallet.entryMarketCap
  let newValue := wallet.investedAmount * marketCapFactor
  let rawPnL := newValue - wallet.investedAmount
  { toWalletData := wallet
    rawPnL := rawPnL
    pnLPercentage := (marketCapFactor - 1) * 100
    redistributionAmount := 0
    finalBalance := wallet.investedAmount + rawPnL
    isProfit := decide (rawPnL > 0) }

/-- The walletsWithPnL array of calculatePnL. -/
def pnlWallets (walletData : List WalletData) : List CalculatedWallet :=
  walletData.map computeWalletPnL

/-- The winners array: walletsWithPnL.filter(w => w.isProfit). -/
def winnersOf (walletData : List WalletData) : List CalculatedWallet :=
  (pnlWallets walletData).filter (fun w => w.isProfit)

/-- The losers array: walletsWithPnL.filter(w => !w.isProfit). -/
def losersOf (walletData : List WalletData) : List CalculatedWallet :=
  (pnlWallets walletData).filter (fun w => !w.isProfit)

/-- totalProfit of calculatePnL: sum of rawPnL over the profit wallets. -/
def totalProfitOf (walletData : List WalletData) : ℚ :=
  ((winnersOf walletData).map (fun w => w.rawPnL)).sum

/-- totalLoss of calculatePnL: Math.abs of the summed rawPnL of the rest. -/
def totalLossOf (walletData : List WalletData) : ℚ :=
  jsAbs ((losersOf walletData).map (fun w => w.rawPnL)).sum

/-- The bounded redistribution pool, named redistributionAmount in the source:
Math.min(totalProfit, totalLoss). -/
def poolOf (walletData : List WalletData) : ℚ :=
  jsMin (totalProfitOf walletData) (totalLossOf walletData)

/-- The switch statement inside losers.forEach of part_003 lines 73-86: the
per-loser share for the selected mode. -/
def loserShare (mode : RedistributionMode) (pool totalLoss : ℚ) (numLosers : ℕ)
    (loser : CalculatedWallet) : ℚ :=
  match mode with
  | RedistributionMode.equal => pool / (numLosers : ℚ)
  | RedistributionMode.proportional => pool * (jsAbs loser.rawPnL / totalLoss)
  | RedistributionMode.custom percentages => (pool * percentages loser.id) / 100

/-- One iteration of losers.forEach in part_003: set the share and re-derive
finalBalance. -/
def applyLoser (mode : RedistributionMode) (pool totalLoss : ℚ) (numLosers : ℕ)
    (loser : CalculatedWallet) : CalculatedWallet :=
  let r := loserShare mode pool totalLoss numLosers loser
  { loser with redistributionAmount := r
               finalBalance := loser.investedAmount + loser.rawPnL + r }

/-- One iteration of winners.forEach in part_003: the winner surrenders its
share of totalRedistributionOut, proportional to its share of totalProfit. -/
def applyWinner (totalRedistributionOut totalProfit : ℚ)
    (winner : CalculatedWallet) : CalculatedWallet :=
  let r := -totalRedistributionOut * (winner.rawPnL / totalProfit)
  { winner with redistributionAmount := r
                finalBalance := winner.investedAmount + winner.rawPnL + r }

/-- totalRedistributionOut of part_003 line 91: the sum of the loser shares
actually assigned, computed after the losers.forEach mutation pass. -/
def tOutOf (mode : RedistributionMode) (walletData : List WalletData) : ℚ :=
  (((losersOf walletData).map
      (applyLoser mode (poolOf walletData) (totalLossOf walletData)
        (losersOf walletData).length)).map
    (fun w => w.redistributionAmount)).sum

/-- calculatePnL of src/unnamed/part_003 lines 29-99, functionalised: the
source mutates the shared CalculatedWallet objects of walletsWithPnL in place
(losers.forEach, then winners.forEach) and publishes walletsWithPnL; since
every wallet lies in exactly one partition and both transforms are
deterministic, the published array equals the input order mapped through the
matching transform. The guard totalProfit === 0 || totalLoss === 0 short
circuits redistribution. -/
def calculatePnL (mode : RedistributionMode) (walletData : List WalletData) :
    List CalculatedWallet :=
  if totalProfitOf walletData = 0 ∨ totalLossOf walletData = 0 then
    pnlWallets walletData
  else
    (pnlWallets walletData).map (fun w =>
      if w.isProfit then
        applyWinner (tOutOf mode walletData) (totalProfitOf walletData) w
      else
        applyLoser mode (poolOf walletData) (totalLossOf walletData)
          (losersOf walletData).length w)

/-- totalRedistributableProfit of src/unnamed/part_001 lines 72-78: every
profit wallet pools its balance above invested principal. The winners are
read before mutation, so finalBalance here is the pre-pass value. -/
def clawbackPool (walletData : List WalletData) : ℚ :=
  ((winnersOf walletData).map
    (fun w => jsMax 0 (w.finalBalance - w.investedAmount))).sum

/-- One iteration of winners.forEach in part_001: pool the profit above the
invested principal and drop the winner to break-even. -/
def applyClawbackWinner (winner : CalculatedWallet) : CalculatedWallet :=
  let profitToRedistribute := jsMax 0 (winner.finalBalance - winner.investedAmount)
  { winner with redistributionAmount := -profitToRedistribute
                finalBalance := winner.investedAmount }

/-- One iteration of losers.forEach in part_001: losers split the pooled
profit equally. -/
def applyClawbackLoser (pool : ℚ) (numLosers : ℕ)
    (loser : CalculatedWallet) : CalculatedWallet :=
  let r := pool / (numLosers : ℚ)
  { loser with redistributionAmount := r
               finalBalance := loser.investedAmount + loser.rawPnL + r }

/-- calculatePnL of src/unnamed/part_001 lines 30-90 (the full-clawback
variant), functionalised the same way as the part_003 engine. -/
def calculatePnLClawback (walletData : List WalletData) : List CalculatedWallet :=
  if totalProfitOf walletData = 0 ∨ totalLossOf walletData = 0 then
    pnlWallets walletData
  else
    (pnlWallets walletData).map (fun w =>
      if w.isProfit then applyClawbackWinner w
      else applyClawbackLoser (clawbackPool walletData) (losersOf walletData).length w)

/-- Sum of redistributionAmount over the non-profit records of the engine
output. -/
def loserOutputTotal (mode : RedistributionMode) (walletData : List WalletData) : ℚ :=
  (((calculatePnL mode walletData).filter (fun w => !w.isProfit)).map
    (fun w => w.redistributionAmount)).sum

/-- Sum of a custom percentage map over the loser partition. -/
def sumCustomOverLosers (percentages : String → ℚ) (walletData : List WalletData) : ℚ :=
  ((losersOf walletData).map (fun w => percentages w.id)).sum

section helperLemmas

lemma jsAbs_zero : jsAbs 0 = 0 := by simp [jsAbs]

lemma jsAbs_nonneg (a : ℚ) : 0 ≤ jsAbs a := by
  unfold jsAbs; split <;> linarith

lemma jsAbs_of_nonpos {a : ℚ} (h : a ≤ 0) : jsAbs a = -a := by
  unfold jsAbs; split
  · rfl
  · linarith

lemma jsMin_right_zero {a : ℚ} (h : 0 < a) : jsMin a 0 = 0 := by
  unfold jsMin
  rw [if_neg (by linarith)]

lemma mem_pnlWallets {d : List WalletData} {w : CalculatedWallet}
    (hw : w ∈ pnlWallets d) :
    w.redistributionAmount = 0 ∧ w.finalBalance = w.investedAmount + w.rawPnL ∧
      (w.isProfit = true ↔ 0 < w.rawPnL) := by
  obtain ⟨u, _, rfl⟩ := List.mem_map.mp hw
  refine ⟨rfl, rfl, ?_⟩
  simp [computeWalletPnL]

lemma applyWinner_isProfit (t p : ℚ) (w : CalculatedWallet) :
    (applyWinner t p w).isProfit = w.isProfit := rfl

lemma applyLoser_isProfit (mode : RedistributionMode) (pool tl : ℚ) (n : ℕ)
    (w : CalculatedWallet) :
    (applyLoser mode pool tl n w).isProfit = w.isProfit := rfl

lemma sum_map_const_q {α : Type} (l : List α) (c : ℚ) :
    (l.map (fun _ => c)).sum = (l.length : ℚ) * c := by
  induction l with
  | nil => simp
  | cons a t ih =>
    simp only [List.map_cons, List.sum_cons, ih, List.length_cons]
    push_cast
    ring

lemma sum_nonpos_q (l : List ℚ) (h : ∀ x ∈ l, x ≤ 0) : l.sum ≤ 0 := by
  induction l with
  | nil => simp
  | cons a t ih =>
    simp only [List.sum_cons]
    have ha := h a (by simp)
    have ht := ih (fun x hx => h x (by simp [hx]))
    linarith

lemma sum_map_ite_split {α β : Type} (P : α → Bool) (f g : α → β) (h : β → ℚ)
    (ws : List α) :
    ((ws.map (fun w => if P w then f w else g w)).map h).sum
      = (((ws.filter (fun w => P w)).map f).map h).sum
        + (((ws.filter (fun w => !P w)).map g).map h).sum := by
  induction ws with
  | nil => simp
  | cons a t ih =>
    by_cases hP : P a = true
    · have h1 : (a :: t).map (fun w => if P w then f w else g w)
          = f a :: t.map (fun w => if P w then f w else g w) := by simp [hP]
      have h2 : (a :: t).filter (fun w => P w) = a :: t.filter (fun w => P w) := by
        simp [hP]
      have h3 : (a :: t).filter (fun w => !P w) = t.filter (fun w => !P w) := by
        simp [hP]
      rw [h1, h2, h3, List.map_cons, List.sum_cons, List.map_cons, List.map_cons,
        List.sum_cons, ih]
      ring
    · have hP' : P a = false := by
        cases hPa : P a
        · rfl
        · exact absurd hPa hP
      have h1 : (a :: t).map (fun w => if P w then f w else g w)
          = g a :: t.map (fun w => if P w then f w else g w) := by simp [hP']
      have h2 : (a :: t).filter (fun w => P w) = t.filter (fun w => P w) := by
        simp [hP']
      have h3 : (a :: t).filter (fun w => !P w) = a :: t.filter (fun w => !P w) := by
        simp [hP']
      rw [h1, h2, h3, List.map_cons, List.map_cons, List.sum_cons, List.map_cons,
        List.sum_cons, ih]
      ring

lemma filter_not_map_ite (P : CalculatedWallet → Bool)
    (f g : CalculatedWallet → CalculatedWallet)
    (hf : ∀ w, P (f w) = P w) (hg : ∀ w, P (g w) = P w)
    (ws : List CalculatedWallet) :
    ((ws.map (fun w => if P w then f w else g w)).filter (fun w => !P w))
      = (ws.filter (fun w => !P w)).map g := by
  induction ws with
  | nil => simp
  | cons a t ih =>
    by_cases hP : P a = true
    · simp [hP, hf, ih]
    · have hP' : P a = false := by
        cases hPa : P a
        · rfl
        · exact absurd hPa hP
      simp [hP', hg, ih]

lemma totalProfit_pos {d : List WalletData} (hw : winnersOf d ≠ []) :
    0 < totalProfitOf d := by
  unfold totalProfitOf
  apply List.sum_pos
  · intro x hx
    obtain ⟨v, hv, rfl⟩ := List.mem_map.mp hx
    have hvm := List.mem_filter.mp hv
    exact (mem_pnlWallets hvm.1).2.2.mp hvm.2
  · intro h
    exact hw (List.map_eq_nil_iff.mp h)

lemma totalLoss_nonneg (d : List WalletData) : 0 ≤ totalLossOf d :=
  jsAbs_nonneg _

lemma losers_ne_nil_of_totalLoss {d : List WalletData}
    (h : totalLossOf d ≠ 0) : losersOf d ≠ [] := by
  intro hnil
  apply h
  simp [totalLossOf, hnil, jsAbs_zero]

lemma losers_rawPnL_nonpos {d : List WalletData} {w : CalculatedWallet}
    (hw : w ∈ losersOf d) : w.rawPnL ≤ 0 := by
  have hv := List.mem_filter.mp hw
  have hiff := (mem_pnlWallets hv.1).2.2
  by_contra hpos
  push_neg at hpos
  have : w.isProfit = true := hiff.mpr hpos
  rw [this] at hv
  simp at hv

lemma calculatePnL_guard_true {mode : RedistributionMode} {d : List WalletData}
    (h : totalProfitOf d = 0 ∨ totalLossOf d = 0) :
    calculatePnL mode d = pnlWallets d := by
  unfold calculatePnL
  rw [if_pos h]

lemma calculatePnL_guard_false {mode : RedistributionMode} {d : List WalletData}
    (h : ¬(totalProfitOf d = 0 ∨ totalLossOf d = 0)) :
    calculatePnL mode d = (pnlWallets d).map (fun w =>
      if w.isProfit then applyWinner (tOutOf mode d) (totalProfitOf d) w
      else applyLoser mode (poolOf d) (totalLossOf d) (losersOf d).length w) := by
  unfold calculatePnL
  rw [if_neg h]

lemma clawback_guard_false {d : List WalletData}
    (h : ¬(totalProfitOf d = 0 ∨ totalLossOf d = 0)) :
    calculatePnLClawback d = (pnlWallets d).map (fun w =>
      if w.isProfit then applyClawbackWinner w
      else applyClawbackLoser (clawbackPool d) (losersOf d).length w) := by
  unfold calculatePnLClawback
  rw [if_neg h]

lemma tOut_equal {d : List WalletData} (hl : losersOf d ≠ []) :
    tOutOf RedistributionMode.equal d = poolOf d := by
  unfold tOutOf
  rw [List.map_map]
  have hcongr : (losersOf d).map
        ((fun w => w.redistributionAmount) ∘
          applyLoser RedistributionMode.equal (poolOf d) (totalLossOf d)
            (losersOf d).length)
      = (losersOf d).map (fun _ => poolOf d / ((losersOf d).length : ℚ)) := by
    apply List.map_congr_left
    intro a _
    simp [applyLoser, loserShare]
  rw [hcongr, sum_map_const_q]
  have hn : ((losersOf d).length : ℚ) ≠ 0 := by
    exact_mod_cast fun h => hl (List.length_eq_zero.mp h)
  rw [mul_comm, div_mul_cancel₀ _ hn]

lemma tOut_prop {d : List WalletData} (htl : totalLossOf d ≠ 0) :
    tOutOf RedistributionMode.proportional d = poolOf d := by
  unfold tOutOf
  rw [List.map_map]
  have hcongr : (losersOf d).map
        ((fun w => w.redistributionAmount) ∘
          applyLoser RedistributionMode.proportional (poolOf d) (totalLossOf d)
            (losersOf d).length)
      = (losersOf d).map (fun w => -(poolOf d / totalLossOf d) * w.rawPnL) := by
    apply List.map_congr_left
    intro a ha
    have hnp : a.rawPnL ≤ 0 := losers_rawPnL_nonpos ha
    simp only [Function.comp_apply, applyLoser, loserShare]
    rw [jsAbs_of_nonpos hnp]
    ring
  rw [hcongr, List.sum_map_mul_left]
  have hS : ((losersOf d).map (fun w => w.rawPnL)).sum ≤ 0 := by
    apply sum_nonpos_q
    intro x hx
    obtain ⟨v, hv, rfl⟩ := List.mem_map.mp hx
    exact losers_rawPnL_nonpos hv
  have htl2 : totalLossOf d = -((losersOf d).map (fun w => w.rawPnL)).sum := by
    unfold totalLossOf
    rw [jsAbs_of_nonpos hS]
  have hSne : ((losersOf d).map (fun w => w.rawPnL)).sum ≠ 0 := by
    intro h0
    apply htl
    unfold totalLossOf
    rw [h0, jsAbs_zero]
  rw [htl2, div_neg, neg_neg, div_mul_cancel₀ _ hSne]

lemma tOut_custom {d : List WalletData} (p : String → ℚ) :
    tOutOf (RedistributionMode.custom p) d
      = poolOf d * sumCustomOverLosers p d / 100 := by
  unfold tOutOf sumCustomOverLosers
  rw [List.map_map]
  have hcongr : (losersOf d).map
        ((fun w => w.redistributionAmount) ∘
          applyLoser (RedistributionMode.custom p) (poolOf d) (totalLossOf d)
            (losersOf d).length)
      = (losersOf d).map (fun w => poolOf d / 100 * p w.id) := by
    apply List.map_congr_left
    intro a _
    simp only [Function.comp_apply, applyLoser, loserShare]
    ring
  rw [hcongr, List.sum_map_mul_left]
  ring

lemma tOut_eq_pool {mode : RedistributionMode} {d : List WalletData}
    (htl : totalLossOf d ≠ 0)
    (hmode : mode = RedistributionMode.equal ∨ mode = RedistributionMode.proportional ∨
      ∃ p, mode = RedistributionMode.custom p ∧ sumCustomOverLosers p d = 100) :
    tOutOf mode d = poolOf d := by
  rcases hmode with rfl | rfl | ⟨p, rfl, hsum⟩
  · exact tOut_equal (losers_ne_nil_of_totalLoss htl)
  · exact tOut_prop htl
  · rw [tOut_custom, hsum, mul_div_assoc]
    norm_num

end helperLemmas

/-- Concrete winner wallet: invested 100 at entry cap 100, exit cap 200, so
rawPnL = 100. -/
def wAlpha : WalletData :=
  { id := "A", walletAddress := "0xa", tokenName := "TKN"
    investedAmount := 100, entryMarketCap := 100, exitMarketCap := 200 }

/-- Concrete loser wallet: invested 100 at entry cap 100, exit cap 0, so
rawPnL = -100. -/
def wBeta : WalletData :=
  { id := "B", walletAddress := "0xb", tokenName := "TKN"
    investedAmount := 100, entryMarketCap := 100, exitMarketCap := 0 }

/-- A two-wallet group with one winner and one loser. -/
def grpEx : List WalletData := [wAlpha, wBeta]

/-- A one-wallet group containing only a winner. -/
def grpW : List WalletData := [wAlpha]

/-- A record with entryMarketCap = 0, the data-quality error input. -/
def wZero : WalletData :=
  { id := "Z", walletAddress := "0xz", tokenName := "TKN"
    investedAmount := 1000, entryMarketCap := 0, exitMarketCap := 2000000 }

/-- A default record used as the List.getD fallback in closed statements. -/
def dummyCW : CalculatedWallet := computeWalletPnL wZero

/-- A custom percentage map assigning 50 percent to wallet id B. -/
def pctHalf : String → ℚ := fun s => if s = "B" then 50 else 0

/-- A custom percentage map assigning 200 percent to wallet id B. -/
def pctDouble : String → ℚ := fun s => if s = "B" then 200 else 0

/-- The PnL record of wAlpha. -/
def cwA : CalculatedWallet :=
  { toWalletData := wAlpha, rawPnL := 100, pnLPercentage := 100
    redistributionAmount := 0, finalBalance := 200, isProfit := true }

/-- The PnL record of wBeta. -/
def cwB : CalculatedWallet :=
  { toWalletData := wBeta, rawPnL := -100, pnLPercentage := -100
    redistributionAmount := 0, finalBalance := 0, isProfit := false }

/-- The post-redistribution record of wAlpha in grpEx under EqualShare. -/
def cwAOut : CalculatedWallet :=
  { toWalletData := wAlpha, rawPnL := 100, pnLPercentage := 100
    redistributionAmount := -100, finalBalance := 100, isProfit := true }

/-- The post-redistribution record of wBeta in grpEx under EqualShare. -/
def cwBOut : CalculatedWallet :=
  { toWalletData := wBeta, rawPnL := -100, pnLPercentage := -100
    redistributionAmount := 100, finalBalance := 100, isProfit := false }

section concreteEval

lemma eval_cwA : computeWalletPnL wAlpha = cwA := by
  norm_num [computeWalletPnL, wAlpha, cwA]

lemma eval_cwB : computeWalletPnL wBeta = cwB := by
  norm_num [computeWalletPnL, wBeta, cwB]

lemma pnl_grpEx : pnlWallets grpEx = [cwA, cwB] := by
  simp [pnlWallets, grpEx, eval_cwA, eval_cwB]

lemma winners_grpEx : winnersOf grpEx = [cwA] := by
  simp [winnersOf, pnl_grpEx, cwA, cwB]

lemma losers_grpEx : losersOf grpEx = [cwB] := by
  simp [losersOf, pnl_grpEx, cwA, cwB]

lemma tp_grpEx : totalProfitOf grpEx = 100 := by
  simp [totalProfitOf, winners_grpEx, cwA]

lemma tl_grpEx : totalLossOf grpEx = 100 := by
  norm_num [totalLossOf, losers_grpEx, cwB, jsAbs]

lemma pool_grpEx : poolOf grpEx = 100 := by
  norm_num [poolOf, tp_grpEx, tl_grpEx, jsMin]

lemma guard_grpEx : ¬(totalProfitOf grpEx = 0 ∨ totalLossOf grpEx = 0) := by
  rw [tp_grpEx, tl_grpEx]
  norm_num

lemma tout_equal_grpEx : tOutOf RedistributionMode.equal grpEx = 100 := by
  norm_num [tOutOf, losers_grpEx, applyLoser, loserShare, pool_grpEx, tl_grpEx]

lemma calc_equal_grpEx :
    calculatePnL RedistributionMode.equal grpEx = [cwAOut, cwBOut] := by
  rw [calculatePnL_guard_false guard_grpEx]
  norm_num [pnl_grpEx, cwA, cwB, applyWinner, applyLoser, loserShare,
    tout_equal_grpEx, tp_grpEx, pool_grpEx, tl_grpEx, losers_grpEx, cwAOut, cwBOut,
    wAlpha, wBeta]

lemma clawback_pool_grpEx : clawbackPool grpEx = 100 := by
  norm_num [clawbackPool, winners_grpEx, cwA, wAlpha, jsMax]

lemma calc_claw_grpEx : calculatePnLClawback grpEx = [cwAOut, cwBOut] := by
  rw [clawback_guard_false guard_grpEx]
  norm_num [pnl_grpEx, cwA, cwB, applyClawbackWinner, applyClawbackLoser,
    clawback_pool_grpEx, losers_grpEx, cwAOut, cwBOut, wAlpha, wBeta, jsMax]

lemma pnl_grpW : pnlWallets grpW = [cwA] := by
  simp [pnlWallets, grpW, eval_cwA]

lemma winners_grpW : winnersOf grpW = [cwA] := by
  simp [winnersOf, pnl_grpW, cwA]

lemma losers_grpW : losersOf grpW = [] := by
  simp [losersOf, pnl_grpW, cwA]

lemma tl_grpW : totalLossOf grpW = 0 := by
  simp [totalLossOf, losers_grpW, jsAbs_zero]

lemma calc_grpW : calculatePnL RedistributionMode.equal grpW = [cwA] := by
  rw [calculatePnL_guard_true (Or.inr tl_grpW)]
  exact pnl_grpW

lemma tp_wZero : totalProfitOf [wZero] = 0 := by
  norm_num [totalProfitOf, winnersOf, pnlWallets, computeWalletPnL, wZero]

end concreteEval

/-- C2: the claim asserts that a wallet record with entryMarketCap = 0 makes
the PnL computation fail with a reported DivisionByZero. The code of both
calculatePnL variants has no error channel at all: marketCapRatio is computed
unguarded and each input wallet always yields exactly one numeric output
record, demonstrated here on the entryMarketCap = 0 record wZero. -/
theorem c2_division_no_error_surfaced :
    (calculatePnL RedistributionMode.equal [wZero]).length = 1 ∧
      (calculatePnLClawback [wZero]).length = 1 := by
  constructor
  · rw [calculatePnL_guard_true (Or.inl tp_wZero)]
    simp [pnlWallets]
  · unfold calculatePnLClawback
    rw [if_pos (Or.inl tp_wZero)]
    simp [pnlWallets]

/-- C3: for every group whose winner and loser partitions are both non-empty
and for every policy (EqualShare, Proportional, CustomPercentage with any
percentage map), the redistributionAmount column of the output sums to
exactly 0, which is within the claimed floating-point tolerance. -/
theorem c3_zero_sum (mode : RedistributionMode) (d : List WalletData)
    (hw : winnersOf d ≠ []) (hl : losersOf d ≠ []) :
    ((calculatePnL mode d).map (fun w => w.redistributionAmount)).sum = 0 := by
  by_cases hguard : totalProfitOf d = 0 ∨ totalLossOf d = 0
  · rw [calculatePnL_guard_true hguard]
    apply List.sum_eq_zero
    intro x hx
    obtain ⟨w, hwmem, rfl⟩ := List.mem_map.mp hx
    exact (mem_pnlWallets hwmem).1
  · rw [calculatePnL_guard_false hguard,
      sum_map_ite_split (fun w => w.isProfit)
        (applyWinner (tOutOf mode d) (totalProfitOf d))
        (applyLoser mode (poolOf d) (totalLossOf d) (losersOf d).length)
        (fun w => w.redistributionAmount) (pnlWallets d)]
    have htp : totalProfitOf d ≠ 0 := fun h => hguard (Or.inl h)
    have hwinners : ((((pnlWallets d).filter (fun w => w.isProfit)).map
          (applyWinner (tOutOf mode d) (totalProfitOf d))).map
            (fun w => w.redistributionAmount)).sum = -(tOutOf mode d) := by
      rw [List.map_map]
      have hcongr : ((pnlWallets d).filter (fun w => w.isProfit)).map
            ((fun w => w.redistributionAmount) ∘
              applyWinner (tOutOf mode d) (totalProfitOf d))
          = ((pnlWallets d).filter (fun w => w.isProfit)).map
              (fun w => -(tOutOf mode d) / totalProfitOf d * w.rawPnL) := by
        apply List.map_congr_left
        intro a _
        simp only [Function.comp_apply, applyWinner]
        ring
      rw [hcongr, List.sum_map_mul_left]
      have : (((pnlWallets d).filter (fun w => w.isProfit)).map
          (fun w => w.rawPnL)).sum = totalProfitOf d := rfl
      rw [this, div_mul_cancel₀ _ htp]
    have hlosers : ((((pnlWallets d).filter (fun w => !w.isProfit)).map
          (applyLoser mode (poolOf d) (totalLossOf d) (losersOf d).length)).map
            (fun w => w.redistributionAmount)).sum = tOutOf mode d := rfl
    rw [hwinners, hlosers]
    ring

/-- Witness for c3_zero_sum at the concrete two-wallet group grpEx under the
EqualShare policy. -/
theorem c3_zero_sum_witness :
    (winnersOf grpEx ≠ [] ∧ losersOf grpEx ≠ []) ∧
      ((calculatePnL RedistributionMode.equal grpEx).map
        (fun w => w.redistributionAmount)).sum = 0 :=
  ⟨⟨by simp [winners_grpEx], by simp [losers_grpEx]⟩,
    c3_zero_sum RedistributionMode.equal grpEx (by simp [winners_grpEx])
      (by simp [losers_grpEx])⟩

/-- C6: if the winner partition or the loser partition is empty, the guard
totalProfit === 0 || totalLoss === 0 fires, redistribution is skipped, and
every output record keeps redistributionAmount = 0 with
finalBalance = investedAmount + rawPnL, for every policy. -/
theorem c6_no_redistribution (mode : RedistributionMode) (d : List WalletData)
    (h : winnersOf d = [] ∨ losersOf d = []) :
    ∀ w ∈ calculatePnL mode d,
      w.redistributionAmount = 0 ∧
        w.finalBalance = w.investedAmount + w.rawPnL := by
  have hguard : totalProfitOf d = 0 ∨ totalLossOf d = 0 := by
    rcases h with h | h
    · left
      simp [totalProfitOf, h]
    · right
      simp [totalLossOf, h, jsAbs_zero]
  intro w hw
  rw [calculatePnL_guard_true hguard] at hw
  have hm := mem_pnlWallets hw
  exact ⟨hm.1, hm.2.1⟩

/-- Witness for c6_no_redistribution on the winners-only group grpW. -/
theorem c6_no_redistribution_witness :
    losersOf grpW = [] ∧
      (((calculatePnL RedistributionMode.equal grpW).getD 0 dummyCW).redistributionAmount = 0 ∧
        ((calculatePnL RedistributionMode.equal grpW).getD 0 dummyCW).finalBalance
          = ((calculatePnL RedistributionMode.equal grpW).getD 0 dummyCW).investedAmount
            + ((calculatePnL RedistributionMode.equal grpW).getD 0 dummyCW).rawPnL) :=
  ⟨losers_grpW,
    c6_no_redistribution RedistributionMode.equal grpW (Or.inr losers_grpW) _
      (by simp [calc_grpW])⟩

/-- C7: in both engines, under every policy and on every input group
(including the no-redistribution branch), every output record satisfies
finalBalance = investedAmount + rawPnL + redistributionAmount. -/
theorem c7_final_balance_invariant (mode : RedistributionMode) (d : List WalletData) :
    (∀ w ∈ calculatePnL mode d,
        w.finalBalance = w.investedAmount + w.rawPnL + w.redistributionAmount) ∧
      (∀ w ∈ calculatePnLClawback d,
        w.finalBalance = w.investedAmount + w.rawPnL + w.redistributionAmount) := by
  constructor
  · intro w hw
    by_cases hguard : totalProfitOf d = 0 ∨ totalLossOf d = 0
    · rw [calculatePnL_guard_true hguard] at hw
      have hm := mem_pnlWallets hw
      rw [hm.1, hm.2.1]
      ring
    · rw [calculatePnL_guard_false hguard] at hw
      obtain ⟨v, _, rfl⟩ := List.mem_map.mp hw
      by_cases hvp : v.isProfit = true
      · simp [hvp, applyWinner]
      · have hvp' : v.isProfit = false := by
          cases hva : v.isProfit
          · rfl
          · exact absurd hva hvp
        simp [hvp', applyLoser]
  · intro w hw
    by_cases hguard : totalProfitOf d = 0 ∨ totalLossOf d = 0
    · unfold calculatePnLClawback at hw
      rw [if_pos hguard] at hw
      have hm := mem_pnlWallets hw
      rw [hm.1, hm.2.1]
      ring
    · rw [clawback_guard_false hguard] at hw
      obtain ⟨v, hv, rfl⟩ := List.mem_map.mp hw
      have hm := mem_pnlWallets hv
      by_cases hvp : v.isProfit = true
      · have hpos : 0 < v.rawPnL := hm.2.2.mp hvp
        have hmax : jsMax 0 (v.finalBalance - v.investedAmount) = v.rawPnL := by
          rw [hm.2.1]
          have harg : v.investedAmount + v.rawPnL - v.investedAmount = v.rawPnL := by
            ring
          rw [harg]
          unfold jsMax
          rw [if_pos (le_of_lt hpos)]
        simp only [hvp, if_pos, applyClawbackWinner, hmax]
        ring
      · have hvp' : v.isProfit = false := by
          cases hva : v.isProfit
          · rfl
          · exact absurd hva hvp
        simp [hvp', applyClawbackLoser]

/-- Witness for c7_final_balance_invariant at grpEx: the first record of each
engine output satisfies the balance identity. -/
theorem c7_final_balance_invariant_witness :
    (((calculatePnL RedistributionMode.equal grpEx).getD 0 dummyCW).finalBalance
        = ((calculatePnL RedistributionMode.equal grpEx).getD 0 dummyCW).investedAmount
          + ((calculatePnL RedistributionMode.equal grpEx).getD 0 dummyCW).rawPnL
          + ((calculatePnL RedistributionMode.equal grpEx).getD 0 dummyCW).redistributionAmount) ∧
      (((calculatePnLClawback grpEx).getD 0 dummyCW).finalBalance
        = ((calculatePnLClawback grpEx).getD 0 dummyCW).investedAmount
          + ((calculatePnLClawback grpEx).getD 0 dummyCW).rawPnL
          + ((calculatePnLClawback grpEx).getD 0 dummyCW).redistributionAmount) :=
  ⟨(c7_final_balance_invariant RedistributionMode.equal grpEx).1 _
      (by simp [calc_equal_grpEx]),
    (c7_final_balance_invariant RedistributionMode.equal grpEx).2 _
      (by simp [calc_claw_grpEx])⟩

/-- Preservation of the isProfit flag by the clawback winner transform. -/
theorem applyClawbackWinner_isProfit (w : CalculatedWallet) :
    (applyClawbackWinner w).isProfit = w.isProfit := rfl

/-- Preservation of the isProfit flag by the clawback loser transform. -/
theorem applyClawbackLoser_isProfit (pool : ℚ) (n : ℕ) (w : CalculatedWallet) :
    (applyClawbackLoser pool n w).isProfit = w.isProfit := rfl

/-- On the redistribution branch, the loser rows of the output are exactly the
loser partition mapped through applyLoser, so their redistribution sum is
totalRedistributionOut. -/
theorem loserOutputTotal_eq_tOut {mode : RedistributionMode} {d : List WalletData}
    (hguard : ¬(totalProfitOf d = 0 ∨ totalLossOf d = 0)) :
    loserOutputTotal mode d = tOutOf mode d := by
  unfold loserOutputTotal
  rw [calculatePnL_guard_false hguard,
    filter_not_map_ite (fun w => w.isProfit)
      (applyWinner (tOutOf mode d) (totalProfitOf d))
      (applyLoser mode (poolOf d) (totalLossOf d) (losersOf d).length)
      (applyWinner_isProfit _ _) (applyLoser_isProfit _ _ _ _) (pnlWallets d)]
  rfl

/-- C4 amended: with non-empty winner and loser partitions, every winner
surrenders exactly -pool * (rawPnL / totalProfit) under EqualShare and
Proportional, and under CustomPercentage whenever the caller percentages sum
to 100 over the losers; (the counterexample shows the formula fails for other
custom maps, because winners actually mirror the assigned loser total). -/
theorem c4_winner_formula_amended (mode : RedistributionMode) (d : List WalletData)
    (hw : winnersOf d ≠ []) (hl : losersOf d ≠ [])
    (hmode : mode = RedistributionMode.equal ∨ mode = RedistributionMode.proportional ∨
      ∃ p, mode = RedistributionMode.custom p ∧ sumCustomOverLosers p d = 100) :
    ∀ w ∈ calculatePnL mode d, w.isProfit = true →
      w.redistributionAmount = -(poolOf d) * (w.rawPnL / totalProfitOf d) := by
  have htp : 0 < totalProfitOf d := totalProfit_pos hw
  by_cases hguard : totalProfitOf d = 0 ∨ totalLossOf d = 0
  · have htl : totalLossOf d = 0 := hguard.resolve_left (ne_of_gt htp)
    have hpool : poolOf d = 0 := by
      unfold poolOf
      rw [htl, jsMin_right_zero htp]
    intro w hwmem _
    rw [calculatePnL_guard_true hguard] at hwmem
    rw [(mem_pnlWallets hwmem).1, hpool]
    ring
  · intro w hwmem hprof
    rw [calculatePnL_guard_false hguard] at hwmem
    obtain ⟨v, _, rfl⟩ := List.mem_map.mp hwmem
    have htl : totalLossOf d ≠ 0 := fun h => hguard (Or.inr h)
    by_cases hvp : v.isProfit = true
    · rw [if_pos hvp]
      simp only [applyWinner]
      rw [tOut_eq_pool htl hmode]
    · rw [if_neg hvp] at hprof
      rw [applyLoser_isProfit] at hprof
      exact absurd hprof hvp

/-- Witness for c4_winner_formula_amended: the winner record of grpEx under
EqualShare satisfies the pool formula. -/
theorem c4_winner_formula_witness :
    ((calculatePnL RedistributionMode.equal grpEx).getD 0 dummyCW).isProfit = true ∧
      ((calculatePnL RedistributionMode.equal grpEx).getD 0 dummyCW).redistributionAmount
        = -(poolOf grpEx)
          * (((calculatePnL RedistributionMode.equal grpEx).getD 0 dummyCW).rawPnL
              / totalProfitOf grpEx) :=
  ⟨by simp [calc_equal_grpEx, cwAOut],
    c4_winner_formula_amended RedistributionMode.equal grpEx
      (by simp [winners_grpEx]) (by simp [losers_grpEx]) (Or.inl rfl) _
      (by simp [calc_equal_grpEx]) (by simp [calc_equal_grpEx, cwAOut])⟩

/-- The post-redistribution record of wAlpha in grpEx under the custom map
pctHalf. -/
def cwAHalf : CalculatedWallet :=
  { toWalletData := wAlpha, rawPnL := 100, pnLPercentage := 100
    redistributionAmount := -50, finalBalance := 150, isProfit := true }

/-- The post-redistribution record of wBeta in grpEx under the custom map
pctHalf. -/
def cwBHalf : CalculatedWallet :=
  { toWalletData := wBeta, rawPnL := -100, pnLPercentage := -100
    redistributionAmount := 50, finalBalance := 50, isProfit := false }

lemma tout_half_grpEx : tOutOf (RedistributionMode.custom pctHalf) grpEx = 50 := by
  norm_num [tOutOf, losers_grpEx, applyLoser, loserShare, pool_grpEx, tl_grpEx,
    cwB, wBeta, pctHalf]

lemma calc_half_grpEx :
    calculatePnL (RedistributionMode.custom pctHalf) grpEx = [cwAHalf, cwBHalf] := by
  rw [calculatePnL_guard_false guard_grpEx]
  norm_num [pnl_grpEx, cwA, cwB, applyWinner, applyLoser, loserShare,
    tout_half_grpEx, tp_grpEx, pool_grpEx, tl_grpEx, losers_grpEx, cwAHalf, cwBHalf,
    wAlpha, wBeta, pctHalf]

/-- C4 counterexample: under CustomPercentage with a map assigning 50 percent
to the single loser, the winner of grpEx surrenders 50, while the claimed
formula -pool * (rawPnL / totalProfit) evaluates to 100, so the winner side
does depend on the loser policy. -/
theorem c4_winner_formula_counterexample :
    ((calculatePnL (RedistributionMode.custom pctHalf) grpEx).getD 0 dummyCW).isProfit = true ∧
      ((calculatePnL (RedistributionMode.custom pctHalf) grpEx).getD 0 dummyCW).redistributionAmount
        = -50 ∧
      -(poolOf grpEx)
          * (((calculatePnL (RedistributionMode.custom pctHalf) grpEx).getD 0 dummyCW).rawPnL
              / totalProfitOf grpEx) = -100 ∧
      ((-50 : ℚ) ≠ -100) := by
  refine ⟨?_, ?_, ?_, by norm_num⟩ <;>
    norm_num [calc_half_grpEx, cwAHalf, pool_grpEx, tp_grpEx, wAlpha]

/-- C5 amended: with non-empty winner and loser partitions, the loser side of
the ledger never exceeds the pool min(totalProfit, totalLoss) under
EqualShare and Proportional, and under CustomPercentage whenever the caller
percentages sum to at most 100 over the losers; (the counterexample shows the
cap fails for custom maps summing above 100). -/
theorem c5_pool_cap_amended (mode : RedistributionMode) (d : List WalletData)
    (hw : winnersOf d ≠ []) (hl : losersOf d ≠ [])
    (hmode : mode = RedistributionMode.equal ∨ mode = RedistributionMode.proportional ∨
      ∃ p, mode = RedistributionMode.custom p ∧ sumCustomOverLosers p d ≤ 100) :
    loserOutputTotal mode d ≤ poolOf d := by
  have htp : 0 < totalProfitOf d := totalProfit_pos hw
  by_cases hguard : totalProfitOf d = 0 ∨ totalLossOf d = 0
  · have htl : totalLossOf d = 0 := hguard.resolve_left (ne_of_gt htp)
    have hpool : poolOf d = 0 := by
      unfold poolOf
      rw [htl, jsMin_right_zero htp]
    have htotal : loserOutputTotal mode d = 0 := by
      unfold loserOutputTotal
      rw [calculatePnL_guard_true hguard]
      apply List.sum_eq_zero
      intro x hx
      obtain ⟨v, hv, rfl⟩ := List.mem_map.mp hx
      exact (mem_pnlWallets (List.mem_filter.mp hv).1).1
    rw [htotal, hpool]
  · have htl : totalLossOf d ≠ 0 := fun h => hguard (Or.inr h)
    rw [loserOutputTotal_eq_tOut hguard]
    rcases hmode with rfl | rfl | ⟨p, rfl, hsum⟩
    · rw [tOut_equal (losers_ne_nil_of_totalLoss htl)]
    · rw [tOut_prop htl]
    · rw [tOut_custom]
      have hpool : 0 ≤ poolOf d := by
        unfold poolOf jsMin
        split
        · exact le_of_lt htp
        · exact totalLoss_nonneg d
      calc poolOf d * sumCustomOverLosers p d / 100
            ≤ poolOf d * 100 / 100 := by gcongr
        _ = poolOf d := by
            rw [mul_div_assoc]
            norm_num

/-- Witness for c5_pool_cap_amended at grpEx under EqualShare. -/
theorem c5_pool_cap_witness :
    (winnersOf grpEx ≠ [] ∧ losersOf grpEx ≠ []) ∧
      loserOutputTotal RedistributionMode.equal grpEx ≤ poolOf grpEx :=
  ⟨⟨by simp [winners_grpEx], by simp [losers_grpEx]⟩,
    c5_pool_cap_amended RedistributionMode.equal grpEx
      (by simp [winners_grpEx]) (by simp [losers_grpEx]) (Or.inl rfl)⟩

lemma lot_double_grpEx :
    loserOutputTotal (RedistributionMode.custom pctDouble) grpEx = 200 := by
  rw [loserOutputTotal_eq_tOut guard_grpEx]
  norm_num [tOutOf, losers_grpEx, applyLoser, loserShare, pool_grpEx, tl_grpEx,
    cwB, wBeta, pctDouble]

/-- C5 counterexample: under CustomPercentage with a 200 percent map, the
losers of grpEx receive 200 while the pool is 100, violating the claimed cap
pool + epsilon for epsilon = 1e-6. -/
theorem c5_pool_cap_counterexample :
    loserOutputTotal (RedistributionMode.custom pctDouble) grpEx = 200 ∧
      poolOf grpEx = 100 ∧
      ¬((200 : ℚ) ≤ 100 + 1 / 1000000) :=
  ⟨lot_double_grpEx, pool_grpEx, by norm_num⟩

/-- C8: in the full-clawback variant, when both totalProfit and totalLoss are
non-zero, every winner ends exactly at break-even with redistributionAmount
equal to minus its profit above invested principal, and every loser receives
totalRedistributableProfit / count(losers). -/
theorem c8_clawback (d : List WalletData)
    (htp : totalProfitOf d ≠ 0) (htl : totalLossOf d ≠ 0) :
    ∀ w ∈ calculatePnLClawback d,
      (w.isProfit = true →
        w.finalBalance = w.investedAmount ∧ w.redistributionAmount = -w.rawPnL) ∧
      (w.isProfit = false →
        w.redistributionAmount = clawbackPool d / ((losersOf d).length : ℚ)) := by
  have hguard : ¬(totalProfitOf d = 0 ∨ totalLossOf d = 0) := by
    rintro (h | h)
    exacts [htp h, htl h]
  intro w hw
  rw [clawback_guard_false hguard] at hw
  obtain ⟨v, hv, rfl⟩ := List.mem_map.mp hw
  have hm := mem_pnlWallets hv
  by_cases hvp : v.isProfit = true
  · rw [if_pos hvp]
    constructor
    · intro _
      have hpos : 0 < v.rawPnL := hm.2.2.mp hvp
      have hmax : jsMax 0 (v.finalBalance - v.investedAmount) = v.rawPnL := by
        rw [hm.2.1]
        have harg : v.investedAmount + v.rawPnL - v.investedAmount = v.rawPnL := by
          ring
        rw [harg]
        unfold jsMax
        rw [if_pos (le_of_lt hpos)]
      exact ⟨rfl, by simp only [applyClawbackWinner, hmax]⟩
    · intro hfalse
      rw [applyClawbackWinner_isProfit, hvp] at hfalse
      exact absurd hfalse (by simp)
  · rw [if_neg hvp]
    refine ⟨fun htrue => ?_, fun _ => rfl⟩
    rw [applyClawbackLoser_isProfit] at htrue
    exact absurd htrue hvp

/-- Witness for c8_clawback: the winner of grpEx ends at break-even with
redistribution equal to minus its profit. -/
theorem c8_clawback_witness :
    ((calculatePnLClawback grpEx).getD 0 dummyCW).isProfit = true ∧
      (((calculatePnLClawback grpEx).getD 0 dummyCW).finalBalance
          = ((calculatePnLClawback grpEx).getD 0 dummyCW).investedAmount ∧
        ((calculatePnLClawback grpEx).getD 0 dummyCW).redistributionAmount
          = -((calculatePnLClawback grpEx).getD 0 dummyCW).rawPnL) :=
  ⟨by simp [calc_claw_grpEx, cwAOut],
    (c8_clawback grpEx (by rw [tp_grpEx]; norm_num) (by rw [tl_grpEx]; norm_num) _
      (by simp [calc_claw_grpEx])).1 (by simp [calc_claw_grpEx, cwAOut])⟩

/-- Direction of a transfer event: IN when transfer.toUserAccount is the
wallet, OUT when transfer.fromUserAccount is the wallet. -/
inductive Direction where
  | inbound : Direction
  | outbound : Direction
deriving DecidableEq

/-- Classifier for IN events. -/
def Direction.isIn : Direction → Bool
  | Direction.inbound => true
  | Direction.outbound => false

/-- Classifier for OUT events. -/
def Direction.isOut : Direction → Bool
  | Direction.inbound => false
  | Direction.outbound => true

/-- One normalized transfer event, the element type of the stream consumed by
the reconstruction core of TokenService.fetchWalletData (lines 108-121 build
it from raw provider data; the HTTP layer is outside the core). -/
structure TransferEvent where
  direction : Direction
  tokenAmount : ℚ
  timestamp : ℤ
deriving DecidableEq

/-- One entry of the buys / sells arrays: { amount, timestamp }. -/
structure Sale where
  amount : ℚ
  timestamp : ℤ
deriving DecidableEq

/-- A price oracle sample: { price, market_cap } from the historical price
endpoint; the oracle itself returns Option PriceSample, none being a miss. -/
structure PriceSample where
  price : ℚ
  marketCap : ℚ
deriving DecidableEq

/-- The reconstructed position: the data field of a successful
fetchWalletData result. -/
structure WalletPosition where
  investedAmount : ℚ
  entryMarketCap : ℚ
  exitMarketCap : ℚ
deriving DecidableEq

/-- Reconstruction failure: the "No buy (IN) transactions found" error of
TokenService.fetchWalletData line 123. -/
inductive ReconstructError where
  | noBuyActivity : ReconstructError
deriving DecidableEq

/-- Lines 167-171 of TokenService.ts: priceData?.price || 0 — a missing
sample or a zero price both yield 0. -/
def resolvePrice : Option PriceSample → ℚ
  | some s => if s.price = 0 then 0 else s.price
  | none => 0

/-- Lines 133-148 of TokenService.ts: if (data && data.marketCap) use the
historical market cap, otherwise fall back to the current market cap; a
sample whose marketCap is 0 is falsy and takes the fallback. -/
def resolveMarketCap : Option PriceSample → ℚ → ℚ
  | some s, fallback => if s.marketCap = 0 then fallback else s.marketCap
  | none, fallback => fallback

/-- The buys array of fetchWalletData: IN transfers as { amount, timestamp }.
-/
def buysOf (events : List TransferEvent) : List Sale :=
  (events.filter (fun e => e.direction.isIn)).map
    (fun e => { amount := e.tokenAmount, timestamp := e.timestamp })

/-- The sells array of fetchWalletData: OUT transfers as
{ amount, timestamp }. -/
def sellsOf (events : List TransferEvent) : List Sale :=
  (events.filter (fun e => e.direction.isOut)).map
    (fun e => { amount := e.tokenAmount, timestamp := e.timestamp })

/-- Line 126: buys.sort((a, b) => a.timestamp - b.timestamp), a stable
ascending sort, modelled by stable insertion sort. -/
def sortedBuysOf (events : List TransferEvent) : List Sale :=
  (buysOf events).insertionSort (fun a b => a.timestamp ≤ b.timestamp)

/-- Line 127: sells.sort((a, b) => a.timestamp - b.timestamp). -/
def sortedSellsOf (events : List TransferEvent) : List Sale :=
  (sellsOf events).insertionSort (fun a b => a.timestamp ≤ b.timestamp)

/-- Line 130: entry timestamp = timestamp of the first (earliest) buy; only
evaluated when buys is non-empty, the 0 default is unreachable. -/
def entryTimestampOf (events : List TransferEvent) : ℤ :=
  ((sortedBuysOf events).head?.map (fun b => b.timestamp)).getD 0

/-- Line 131: exit timestamp = timestamp of the last sell, or now when there
are no sells. -/
def exitTimestampOf (events : List TransferEvent) (now : ℤ) : ℤ :=
  match (sortedSellsOf events).getLast? with
  | some s => s.timestamp
  | none => now

/-- Line 156: the sell cursor first skips every sell whose timestamp is at or
before the timestamp of the current buy; skipped sells are gone for good because
sellIndex never moves backwards. -/
def skipSellsAtOrBefore (t : ℤ) (sells : List Sale) : List Sale :=
  sells.dropWhile (fun s => s.timestamp ≤ t)

/-- Lines 160-166: consume the remaining buy amount against the sells at and
after the cursor, oldest first; a partly consumed sell stays at the head with
its amount decremented, a fully consumed sell is retired. Returns the
unconsumed buy remainder and the remaining sells. -/
def consumeSells : List Sale → ℚ → ℚ × List Sale
  | [], buyAmount => (buyAmount, [])
  | sell :: rest, buyAmount =>
    if buyAmount > 0 then
      let sellAmount := jsMin buyAmount sell.amount
      let remaining := sell.amount - sellAmount
      if remaining = 0 then consumeSells rest (buyAmount - sellAmount)
      else (buyAmount - sellAmount, { sell with amount := remaining } :: rest)
    else (buyAmount, sell :: rest)

/-- The mutable state of the FIFO loop of lines 150-175: the sell array from
the cursor on, and the investedAmount / netTokens accumulators. -/
structure FifoState where
  sells : List Sale
  investedAmount : ℚ
  netTokens : ℚ

/-- One iteration of the for-loop over buys (lines 153-175): skip stale
sells, consume the buy against the remaining sells, and price any residual
buy amount at the historical price of the buy (0 on an oracle miss). -/
def fifoStep (priceAt : ℤ → Option PriceSample) (st : FifoState) (buy : Sale) :
    FifoState :=
  let sells1 := skipSellsAtOrBefore buy.timestamp st.sells
  let step := consumeSells sells1 buy.amount
  if step.1 > 0 then
    { sells := step.2
      investedAmount := st.investedAmount + step.1 * resolvePrice (priceAt buy.timestamp)
      netTokens := st.netTokens + step.1 }
  else
    { sells := step.2, investedAmount := st.investedAmount, netTokens := st.netTokens }

/-- The reconstruction core of TokenService.fetchWalletData (lines 122-188):
fail with NoBuyActivity when there is no IN event, otherwise sort both sides,
resolve entry/exit market caps through the oracle with the current market cap
as fallback, and accumulate net invested USD by FIFO matching. The
surrounding HTTP fetching and logging are outside the core; the oracle is the
priceAt parameter and "now" is a parameter instead of Date.now(). -/
def reconstruct (events : List TransferEvent) (priceAt : ℤ → Option PriceSample)
    (currentMarketCap : ℚ) (now : ℤ) : Except ReconstructError WalletPosition :=
  if buysOf events = [] then Except.error ReconstructError.noBuyActivity
  else
    Except.ok
      { investedAmount :=
          ((sortedBuysOf events).foldl (fifoStep priceAt)
            { sells := sortedSellsOf events, investedAmount := 0, netTokens := 0 }).investedAmount
        entryMarketCap :=
          resolveMarketCap (priceAt (entryTimestampOf events)) currentMarketCap
        exitMarketCap :=
          resolveMarketCap (priceAt (exitTimestampOf events now)) currentMarketCap }

/-- The event stream of E2E example 3 of the spec: buys of 100 at t=0 and 50
at t=10, one sell of 120 at t=5. -/
def exampleEvents : List TransferEvent :=
  [{ direction := Direction.inbound, tokenAmount := 100, timestamp := 0 },
   { direction := Direction.outbound, tokenAmount := 120, timestamp := 5 },
   { direction := Direction.inbound, tokenAmount := 50, timestamp := 10 }]

/-- A concrete oracle for the example: price 2 / cap 500 at t=0, price 3 /
cap 600 at t=5, price 4 / cap 700 at t=10, miss elsewhere. -/
def exampleOracle : ℤ → Option PriceSample := fun t =>
  if t = 0 then some { price := 2, marketCap := 500 }
  else if t = 5 then some { price := 3, marketCap := 600 }
  else if t = 10 then some { price := 4, marketCap := 700 }
  else none

section reconstructEval

lemma buys_ex : buysOf exampleEvents = [⟨100, 0⟩, ⟨50, 10⟩] := by
  simp [buysOf, exampleEvents, Direction.isIn]

lemma sells_ex : sellsOf exampleEvents = [⟨120, 5⟩] := by
  simp [sellsOf, exampleEvents, Direction.isOut]

lemma sortedBuys_ex : sortedBuysOf exampleEvents = [⟨100, 0⟩, ⟨50, 10⟩] := by
  norm_num [sortedBuysOf, buys_ex, List.insertionSort, List.orderedInsert]

lemma sortedSells_ex : sortedSellsOf exampleEvents = [⟨120, 5⟩] := by
  norm_num [sortedSellsOf, sells_ex, List.insertionSort, List.orderedInsert]

lemma entryTs_ex : entryTimestampOf exampleEvents = 0 := by
  simp [entryTimestampOf, sortedBuys_ex]

lemma exitTs_ex (now : ℤ) : exitTimestampOf exampleEvents now = 5 := by
  simp [exitTimestampOf, sortedSells_ex]

lemma fifo_step1_ex (priceAt : ℤ → Option PriceSample) :
    fifoStep priceAt { sells := [⟨120, 5⟩], investedAmount := 0, netTokens := 0 }
        ⟨100, 0⟩
      = { sells := [⟨20, 5⟩], investedAmount := 0, netTokens := 0 } := by
  norm_num [fifoStep, skipSellsAtOrBefore, consumeSells, jsMin]

lemma fifo_step2_ex (priceAt : ℤ → Option PriceSample) :
    fifoStep priceAt { sells := [⟨20, 5⟩], investedAmount := 0, netTokens := 0 }
        ⟨50, 10⟩
      = { sells := [], investedAmount := 50 * resolvePrice (priceAt 10)
          netTokens := 50 } := by
  norm_num [fifoStep, skipSellsAtOrBefore, consumeSells]

lemma reconstruct_example_eval (priceAt : ℤ → Option PriceSample) (cmc : ℚ)
    (now : ℤ) :
    reconstruct exampleEvents priceAt cmc now =
      Except.ok
        { investedAmount := 50 * resolvePrice (priceAt 10)
          entryMarketCap := resolveMarketCap (priceAt 0) cmc
          exitMarketCap := resolveMarketCap (priceAt 5) cmc } := by
  unfold reconstruct
  rw [if_neg (by rw [buys_ex]; simp)]
  rw [sortedBuys_ex, sortedSells_ex, entryTs_ex, exitTs_ex,
    List.foldl_cons, List.foldl_cons, List.foldl_nil,
    fifo_step1_ex priceAt, fifo_step2_ex priceAt]

end reconstructEval

/-- C1 corrected: on buys [(100 at t=0), (50 at t=10)] and a sell of 120 at
t=5, the remaining 20 units of the sell are NOT carried forward to buy two:
the cursor skips every sell with timestamp at or before t=10 before matching,
so the second buy keeps its full residual of 50 units, priced at its own
historical price; entry cap resolves at t=0 and exit cap at t=5 (last sell),
with currentMarketCap as fallback. -/
theorem c1_fifo_amended (priceAt : ℤ → Option PriceSample) (cmc : ℚ) (now : ℤ) :
    reconstruct exampleEvents priceAt cmc now =
      Except.ok
        { investedAmount := 50 * resolvePrice (priceAt 10)
          entryMarketCap := resolveMarketCap (priceAt 0) cmc
          exitMarketCap := resolveMarketCap (priceAt 5) cmc } :=
  reconstruct_example_eval priceAt cmc now

/-- C1 counterexample: with the concrete oracle (price 4 at t=10), the code
reconstructs netInvestedUSD = 200 = 50 * 4, while the claim asserts
30 * priceAt(t=10).price = 30 * 4 = 120; 200 is not 120. -/
theorem c1_fifo_counterexample :
    reconstruct exampleEvents exampleOracle 900 1000 =
        Except.ok { investedAmount := 200, entryMarketCap := 500
                    exitMarketCap := 600 } ∧
      resolvePrice (exampleOracle 10) = 4 ∧
      ((200 : ℚ) ≠ 30 * 4) := by
  refine ⟨?_, ?_, by norm_num⟩
  · rw [reconstruct_example_eval]
    norm_num [resolvePrice, resolveMarketCap, exampleOracle]
  · norm_num [resolvePrice, exampleOracle]

/-- C9: reconstruction fails with NoBuyActivity exactly on streams with no IN
event; any stream containing an IN event produces a WalletPosition. -/
theorem c9_no_buy_activity (events : List TransferEvent)
    (priceAt : ℤ → Option PriceSample) (cmc : ℚ) (now : ℤ) :
    ((∀ e ∈ events, e.direction ≠ Direction.inbound) →
        reconstruct events priceAt cmc now
          = Except.error ReconstructError.noBuyActivity) ∧
      ((∃ e ∈ events, e.direction = Direction.inbound) →
        ∃ pos, reconstruct events priceAt cmc now = Except.ok pos) := by
  constructor
  · intro h
    have hf : events.filter (fun e => e.direction.isIn) = [] := by
      rw [List.filter_eq_nil_iff]
      intro a ha
      cases hd : a.direction with
      | inbound => exact absurd hd (h a ha)
      | outbound => simp [Direction.isIn, hd]
    have hb : buysOf events = [] := by
      unfold buysOf
      rw [hf, List.map_nil]
    unfold reconstruct
    rw [if_pos hb]
  · rintro ⟨e, he, hdir⟩
    have hb : buysOf events ≠ [] := by
      have hmem : ({ amount := e.tokenAmount, timestamp := e.timestamp } : Sale)
          ∈ buysOf events := by
        unfold buysOf
        exact List.mem_map_of_mem _
          (List.mem_filter.mpr ⟨he, by simp [hdir, Direction.isIn]⟩)
      exact List.ne_nil_of_mem hmem
    have hok : reconstruct events priceAt cmc now = Except.ok
        { investedAmount :=
            ((sortedBuysOf events).foldl (fifoStep priceAt)
              { sells := sortedSellsOf events, investedAmount := 0
                netTokens := 0 }).investedAmount
          entryMarketCap :=
            resolveMarketCap (priceAt (entryTimestampOf events)) cmc
          exitMarketCap :=
            resolveMarketCap (priceAt (exitTimestampOf events now)) cmc } := by
      unfold reconstruct
      rw [if_neg hb]
    exact ⟨_, hok⟩

/-- A single OUT event, a stream with no buy activity. -/
def soloOutEvent : TransferEvent :=
  { direction := Direction.outbound, tokenAmount := 5, timestamp := 1 }

/-- Witness for c9_no_buy_activity: a sell-only stream fails with
NoBuyActivity. -/
theorem c9_no_buy_activity_witness :
    reconstruct [soloOutEvent] (fun _ => none) 7 9
      = Except.error ReconstructError.noBuyActivity :=
  (c9_no_buy_activity [soloOutEvent] (fun _ => none) 7 9).1
    (by simp [soloOutEvent])

/-- C10: reconstruction collapses a zero-valued oracle sample into a miss,
field by field and independently: ANY returned sample whose marketCap is 0
(its price arbitrary) resolves the entry/exit market cap to the fallback
exactly like a missing sample, and ANY returned sample whose price is 0 (its
marketCap arbitrary) prices a residual at 0 exactly like a missing sample.
The two samples s and t are quantified separately, so mixed samples (zero
marketCap with nonzero price, and conversely) are covered. -/
theorem c10_zero_sample_collapse (s t : PriceSample) (fallback : ℚ)
    (hmc : s.marketCap = 0) (hp : t.price = 0) :
    (resolveMarketCap (some s) fallback = fallback ∧
        resolveMarketCap none fallback = fallback) ∧
      (resolvePrice (some t) = 0 ∧ resolvePrice none = 0) := by
  refine ⟨⟨?_, rfl⟩, ?_, rfl⟩
  · show (if s.marketCap = 0 then fallback else s.marketCap) = fallback
    rw [if_pos hmc]
  · show (if t.price = 0 then 0 else t.price) = 0
    rw [if_pos hp]

/-- A mixed sample: marketCap 0 but a nonzero price. -/
def sampZeroCap : PriceSample := { price := 5, marketCap := 0 }

/-- A mixed sample: price 0 but a nonzero marketCap. -/
def sampZeroPrice : PriceSample := { price := 0, marketCap := 9 }

/-- Witness for c10_zero_sample_collapse at the two mixed samples: a zero
marketCap with nonzero price falls back, and a zero price with nonzero
marketCap contributes 0. -/
theorem c10_zero_sample_collapse_witness :
    (sampZeroCap.marketCap = 0 ∧ sampZeroPrice.price = 0) ∧
      ((resolveMarketCap (some sampZeroCap) 7 = 7 ∧
          resolveMarketCap none 7 = 7) ∧
        (resolvePrice (some sampZeroPrice) = 0 ∧ resolvePrice none = 0)) :=
  ⟨⟨rfl, rfl⟩, c10_zero_sample_collapse sampZeroCap sampZeroPrice 7 rfl rfl⟩
